import Mathlib

set_option maxHeartbeats 1000000
set_option maxRecDepth 100000

/-!
Verification development for the device-identity bootstrap and authenticated
streaming client (scripts/get_dev_jwt.py and scripts/sample_jwt_sse_chat.py).

The Python code manipulates JSON documents through the standard json module;
we embed a JSON value type together with an executable parser and printer
standing for json.loads / json.dump.  The parser takes fuel (an upper bound
on recursion, derived from the input length); the printer emits compact JSON
with the two-character escapes for the quote and backslash characters.
Machine-level details of Python's json module that no claim depends on
(float literals, \u escapes, strictness about raw control characters,
insignificant whitespace emitted by indent=2) are outside the model.
-/

inductive Json where
  | null : Json
  | bool : Bool → Json
  | num : Int → Json
  | str : String → Json
  | arr : List Json → Json
  | obj : List (String × Json) → Json

def lBrace : Char := Char.ofNat 123

def rBrace : Char := Char.ofNat 125

/-- Python truthiness of a JSON-derived value (bool(x) for the values
json.loads can return). -/
def jsonTruthy : Json → Bool
  | .null => false
  | .bool b => b
  | .num n => n != 0
  | .str s => s != ""
  | .arr vs => !vs.isEmpty
  | .obj fs => !fs.isEmpty

/-- Dictionary lookup; the fold keeps the last binding of a repeated key,
matching the dict json.loads builds. -/
def lookupField (fields : List (String × Json)) (key : String) : Option Json :=
  fields.foldl (fun acc f => if f.1 = key then some f.2 else acc) none

def isWsChar (c : Char) : Bool := c = ' ' || c = '\n' || c = '\t' || c = '\r'

def skipWs : List Char → List Char
  | c :: cs => if isWsChar c then skipWs cs else c :: cs
  | [] => []

def unescapeChar (c : Char) : Option Char :=
  if c = 'n' then some '\n'
  else if c = 't' then some '\t'
  else if c = 'r' then some '\r'
  else if c = '"' || c = '\\' || c = '/' then some c
  else if c = 'b' then some (Char.ofNat 8)
  else if c = 'f' then some (Char.ofNat 12)
  else none

/-- Body of a JSON string literal after the opening quote: returns the decoded
characters and the remaining input after the closing quote. -/
def parseStrBody : List Char → Option (List Char × List Char)
  | [] => none
  | c :: cs =>
    if c = '"' then some ([], cs)
    else if c = '\\' then
      match cs with
      | [] => none
      | e :: cs2 =>
        match unescapeChar e with
        | none => none
        | some d => (parseStrBody cs2).map (fun p => (d :: p.1, p.2))
    else (parseStrBody cs).map (fun p => (c :: p.1, p.2))

def grabDigits : List Char → List Char × List Char
  | [] => ([], [])
  | c :: cs =>
    if c.isDigit then
      let p := grabDigits cs
      (c :: p.1, p.2)
    else ([], c :: cs)

def digitsToNat (ds : List Char) : Nat :=
  ds.foldl (fun acc ch => acc * 10 + (ch.toNat - 48)) 0

def parseNonnegNum (cs : List Char) : Option (Int × List Char) :=
  let p := grabDigits cs
  if p.1 = [] then none else some (Int.ofNat (digitsToNat p.1), p.2)

def parseNum : List Char → Option (Int × List Char)
  | '-' :: cs => (parseNonnegNum cs).map (fun q => (-q.1, q.2))
  | cs => parseNonnegNum cs

def dropLit : List Char → List Char → Option (List Char)
  | [], cs => some cs
  | _ :: _, [] => none
  | l :: ls, c :: cs => if c = l then dropLit ls cs else none

mutual

def parseVal : Nat → List Char → Option (Json × List Char)
  | 0, _ => none
  | _ + 1, [] => none
  | fuel + 1, c :: cs =>
    if c = '"' then (parseStrBody cs).map (fun p => (Json.str (String.mk p.1), p.2))
    else if c = '[' then
      match skipWs cs with
      | [] => none
      | d :: r =>
        if d = ']' then some (Json.arr [], r)
        else (parseElems fuel (d :: r)).map (fun p => (Json.arr p.1, p.2))
    else if c = lBrace then
      match skipWs cs with
      | [] => none
      | d :: r =>
        if d = rBrace then some (Json.obj [], r)
        else (parseFields fuel (d :: r)).map (fun p => (Json.obj p.1, p.2))
    else if c = 't' then (dropLit ['r', 'u', 'e'] cs).map (fun r => (Json.bool true, r))
    else if c = 'f' then (dropLit ['a', 'l', 's', 'e'] cs).map (fun r => (Json.bool false, r))
    else if c = 'n' then (dropLit ['u', 'l', 'l'] cs).map (fun r => (Json.null, r))
    else (parseNum (c :: cs)).map (fun p => (Json.num p.1, p.2))

def parseElems : Nat → List Char → Option (List Json × List Char)
  | 0, _ => none
  | fuel + 1, input =>
    match parseVal fuel (skipWs input) with
    | none => none
    | some (v, r) =>
      match skipWs r with
      | ',' :: r2 => (parseElems fuel r2).map (fun p => (v :: p.1, p.2))
      | ']' :: r2 => some ([v], r2)
      | _ => none

def parseFields : Nat → List Char → Option (List (String × Json) × List Char)
  | 0, _ => none
  | fuel + 1, input =>
    match skipWs input with
    | '"' :: cs =>
      match parseStrBody cs with
      | none => none
      | some (key, next0) =>
        match skipWs next0 with
        | ':' :: after0 =>
          match parseVal fuel (skipWs after0) with
          | none => none
          | some (val0, more0) =>
            match skipWs more0 with
            | ',' :: fin0 => (parseFields fuel fin0).map (fun p => ((String.mk key, val0) :: p.1, p.2))
            | d :: fin0 => if d = rBrace then some ([(String.mk key, val0)], fin0) else none
            | [] => none
        | _other => none
    | _other => none

end

/-- Model of json.loads: parse a complete JSON document, rejecting trailing
garbage.  The fuel bound 2*length+2 is enough for any input the grammar
accepts, since every recursive step consumes input. -/
def Json.parse (s : String) : Option Json :=
  match parseVal (2 * s.length + 2) (skipWs s.data) with
  | none => none
  | some (v, r) => if skipWs r = [] then some v else none

def escChar (c : Char) : List Char :=
  if c = '"' then ['\\', '"']
  else if c = '\\' then ['\\', '\\']
  else [c]

def escStr : List Char → List Char
  | c :: cs => escChar c ++ escStr cs
  | [] => []

def natDigitsFuel : Nat → Nat → List Char
  | 0, _ => []
  | fuel + 1, n =>
    if n < 10 then [Nat.digitChar n]
    else natDigitsFuel fuel (n / 10) ++ [Nat.digitChar (n % 10)]

def natDigitChars (n : Nat) : List Char := natDigitsFuel (n + 1) n

mutual

def renderJsonChars : Json → List Char
  | .str s => '"' :: (escStr s.data ++ ['"'])
  | .arr vs => '[' :: (renderArrChars vs ++ [']'])
  | .obj fs => lBrace :: (renderObjChars fs ++ [rBrace])
  | .num n => if n < 0 then '-' :: natDigitChars n.natAbs else natDigitChars n.natAbs
  | .bool b => if b then ("true").data else ("false").data
  | .null => ("null").data

def renderArrChars : List Json → List Char
  | [] => []
  | [v] => renderJsonChars v
  | v :: vs => renderJsonChars v ++ ',' :: renderArrChars vs

def renderObjChars : List (String × Json) → List Char
  | [] => []
  | [f] => '"' :: (escStr f.1.data ++ '"' :: ':' :: renderJsonChars f.2)
  | f :: fs =>
    '"' :: (escStr f.1.data ++ '"' :: ':' :: (renderJsonChars f.2 ++ ',' :: renderObjChars fs))

end

/-- Model of json.dump (compact form; the whitespace json.dump emits with
indent=2 is insignificant to json.loads, so the model omits it). -/
def Json.render (j : Json) : String := String.mk (renderJsonChars j)

mutual

def jsize : Json → Nat
  | .arr vs => jsizeList vs + 1
  | .obj fs => jsizeFields fs + 1
  | _ => 1

def jsizeList : List Json → Nat
  | v :: vs => jsize v + 1 + jsizeList vs
  | [] => 0

def jsizeFields : List (String × Json) → Nat
  | f :: fs => jsize f.2 + 1 + jsizeFields fs
  | [] => 0

end

/-!
Stream decoder (stream_chat_completion in scripts/sample_jwt_sse_chat.py).

The except clause of the source catches exactly JSONDecodeError, KeyError
and IndexError; the subscript and attribute accesses in the try block can
also raise TypeError and AttributeError, which are not caught and abort the
stream, so the decoder tracks which Python exception an extraction raises.
-/

inductive PyErr where
  | jsonDecodeError : PyErr
  | keyError : PyErr
  | indexError : PyErr
  | typeError : PyErr
  | attributeError : PyErr
deriving DecidableEq

/-- The exception classes caught by the skip-and-continue handler in the
source: except (json.JSONDecodeError, KeyError, IndexError). -/
def caughtBySkip : PyErr → Bool
  | .jsonDecodeError => true
  | .keyError => true
  | .indexError => true
  | .typeError => false
  | .attributeError => false

/-- Python v[key] for a string key on a JSON-derived value: dicts look the
key up (KeyError when absent); every other type raises TypeError. -/
def pySubscriptStr (v : Json) (key : String) : Except PyErr Json :=
  match v with
  | .obj fields =>
    match lookupField fields key with
    | some w => .ok w
    | none => .error .keyError
  | _ => .error .typeError

/-- Python v[0] on a JSON-derived value: lists and strings index (IndexError
when empty), dicts raise KeyError (JSON keys are strings, never 0), and the
scalar types raise TypeError. -/
def pySubscriptZero (v : Json) : Except PyErr Json :=
  match v with
  | .arr [] => .error .indexError
  | .arr (w :: _) => .ok w
  | .str s =>
    match s.data with
    | [] => .error .indexError
    | c :: _ => .ok (.str (String.mk [c]))
  | .obj _ => .error .keyError
  | _ => .error .typeError

/-- Python v.get(key, dflt): only dicts have .get; every other type raises
AttributeError. -/
def pyGetDefault (v : Json) (key : String) (dflt : Json) : Except PyErr Json :=
  match v with
  | .obj fields => .ok ((lookupField fields key).getD dflt)
  | _ => .error .attributeError

/-- json.loads(data) followed by chunk["choices"][0]["delta"].get("content", "")
from the source, recording which Python exception, if any, the chain raises. -/
def extractContent (data : String) : Except PyErr Json :=
  match Json.parse data with
  | none => .error .jsonDecodeError
  | some chunk =>
    match pySubscriptStr chunk "choices" with
    | .error err => .error err
    | .ok choices =>
      match pySubscriptZero choices with
      | .error err => .error err
      | .ok first =>
        match pySubscriptStr first "delta" with
        | .error err => .error err
        | .ok delta => pyGetDefault delta "content" (.str "")

/-- Character-level model of Python str.startswith. -/
def listStartsWith : List Char → List Char → Bool
  | p :: ps, c :: cs => p == c && listStartsWith ps cs
  | ps, _ => ps.isEmpty

/-- The SSE loop of stream_chat_completion: one pass over the lines of the
response body.  Returns the contents printed (one per emitted delta, in
order) and the uncaught Python exception, if one aborted the loop.  A line
with the "data: " mark is inspected, "[DONE]" stops decoding, a caught
extraction error skips the line, an uncaught one aborts; every other line is
ignored. -/
def decodeSSE : List String → List Json × Option PyErr
  | [] => ([], none)
  | line :: rest =>
    if listStartsWith ("data: ").data line.data then
      if String.mk (line.data.drop 6) = "[DONE]" then ([], none)
      else
        match extractContent (String.mk (line.data.drop 6)) with
        | .ok content =>
          if jsonTruthy content then
            (content :: (decodeSSE rest).1, (decodeSSE rest).2)
          else decodeSSE rest
        | .error e => if caughtBySkip e then decodeSSE rest else ([], some e)
    else decodeSSE rest

/-- The streaming HTTP response as the decoder's caller sees it: the status,
the raw body (read only on the error path), and the body split into lines
(as response.aiter_lines delivers it on the success path). -/
structure StreamResponse where
  status : Nat
  body : String
  lines : List String

inductive StreamOutcome where
  | httpError : Nat → String → StreamOutcome
  | streamed : List Json → Option PyErr → StreamOutcome

/-- stream_chat_completion from scripts/sample_jwt_sse_chat.py: a non-200
status surfaces the status and body before any line is decoded; otherwise
the SSE loop runs over the body lines. -/
def stream_chat_completion (resp : StreamResponse) : StreamOutcome :=
  if resp.status ≠ 200 then .httpError resp.status resp.body
  else .streamed (decodeSSE resp.lines).1 (decodeSSE resp.lines).2

/-!
Session store and registration exchange (scripts/get_dev_jwt.py, and
load_jwt_token in scripts/sample_jwt_sse_chat.py).
-/

/-- The filesystem as a map from paths to file contents. -/
def Fs : Type := String → Option String

def TOKEN_FILE : String := "test_jwt_token.json"

inductive LoadError where
  | notFound : LoadError
  | corruptRecord : LoadError
  | missingToken : LoadError
deriving DecidableEq

/-- load_jwt_token from scripts/sample_jwt_sse_chat.py, with the fixed
TOKEN_FILE generalized to a path argument.  The missing-file check comes
first; a body that fails to parse, or parses to a non-dict (whose .get
raises, caught by the generic except), is a structural failure; a falsy
access_token (absent key, null, or empty string) is a missing token. -/
def load_jwt_token (path : String) (fs : Fs) : Except LoadError Json :=
  match fs path with
  | none => .error .notFound
  | some contents =>
    match Json.parse contents with
    | none => .error .corruptRecord
    | some (.obj fields) =>
      match lookupField fields "access_token" with
      | none => .error .missingToken
      | some v => if jsonTruthy v then .ok v else .error .missingToken
    | some _ => .error .corruptRecord

structure DeviceKeys where
  privateKeyPem : String
  publicKeyPem : String
  publicKeyB64 : String
deriving DecidableEq

structure SessionRecord where
  accessToken : String
  refreshToken : Option String
  tokenType : String
  expiresInSeconds : Nat
  tenantId : Option String
  createdAt : String
  email : String
  deviceKeys : DeviceKeys
deriving DecidableEq

def optStrJson : Option String → Json
  | none => Json.null
  | some s => Json.str s

def deviceKeysToJson (k : DeviceKeys) : Json :=
  Json.obj [("private_key_pem", Json.str k.privateKeyPem),
            ("public_key_pem", Json.str k.publicKeyPem),
            ("public_key_b64", Json.str k.publicKeyB64)]

/-- The token_info dictionary built by get_dev_jwt_token, field for field and
in source order. -/
def sessionRecordToJson (r : SessionRecord) : Json :=
  Json.obj [("access_token", Json.str r.accessToken),
            ("refresh_token", optStrJson r.refreshToken),
            ("token_type", Json.str r.tokenType),
            ("expires_in", Json.num (Int.ofNat r.expiresInSeconds)),
            ("tenant_id", optStrJson r.tenantId),
            ("created_at", Json.str r.createdAt),
            ("email", Json.str r.email),
            ("device_keys", deviceKeysToJson r.deviceKeys)]

/-- The Session Store's save: serialize the full record to the given path,
overwriting whatever was there. -/
def save (r : SessionRecord) (path : String) (fs : Fs) : Fs :=
  fun p => if p = path then some (Json.render (sessionRecordToJson r)) else fs p

def jsonAsStr : Json → Option String
  | .str s => some s
  | _ => none

def jsonAsOptStr : Json → Option (Option String)
  | .null => some none
  | .str s => some (some s)
  | _ => none

def jsonAsNat : Json → Option Nat
  | .num n => if n < 0 then none else some n.toNat
  | _ => none

def deviceKeysOfJson (j : Json) : Option DeviceKeys :=
  match j with
  | .obj fields =>
    match (lookupField fields "private_key_pem").bind jsonAsStr with
    | none => none
    | some a =>
      match (lookupField fields "public_key_pem").bind jsonAsStr with
      | none => none
      | some b =>
        match (lookupField fields "public_key_b64").bind jsonAsStr with
        | none => none
        | some c => some ⟨a, b, c⟩
  | _ => none

/-- Modelled from the spec: decoding a parsed session file back into a full
SessionRecord.  The source's load_jwt_token parses the whole record but
returns only the access token; the spec's Session Store load contract
returns the record itself, so the field-by-field decoding is taken from the
spec's data model (section 3), with the field names of the saved dict. -/
def sessionRecordOfJson (j : Json) : Option SessionRecord :=
  match j with
  | .obj fields =>
    match (lookupField fields "access_token").bind jsonAsStr with
    | none => none
    | some tok =>
      match (lookupField fields "refresh_token").bind jsonAsOptStr with
      | none => none
      | some rtok =>
        match (lookupField fields "token_type").bind jsonAsStr with
        | none => none
        | some ttype =>
          match (lookupField fields "expires_in").bind jsonAsNat with
          | none => none
          | some exp =>
            match (lookupField fields "tenant_id").bind jsonAsOptStr with
            | none => none
            | some ten =>
              match (lookupField fields "created_at").bind jsonAsStr with
              | none => none
              | some cat =>
                match (lookupField fields "email").bind jsonAsStr with
                | none => none
                | some em =>
                  match (lookupField fields "device_keys").bind deviceKeysOfJson with
                  | none => none
                  | some dk => some ⟨tok, rtok, ttype, exp, ten, cat, em, dk⟩
  | _ => none

/-- Modelled from the spec: the Session Store load that returns the full
SessionRecord (section 4.3).  NotFound when the path is absent, then the
same access-token gate as the source's load_jwt_token, and CorruptRecord on
any structural parse failure. -/
def loadRecord (path : String) (fs : Fs) : Except LoadError SessionRecord :=
  match fs path with
  | none => .error .notFound
  | some contents =>
    match Json.parse contents with
    | none => .error .corruptRecord
    | some (.obj fields) =>
      match lookupField fields "access_token" with
      | none => .error .missingToken
      | some v =>
        if jsonTruthy v then
          match sessionRecordOfJson (.obj fields) with
          | none => .error .corruptRecord
          | some r => .ok r
        else .error .missingToken
    | some _ => .error .corruptRecord

/-!
Registration exchange: get_dev_jwt_token from scripts/get_dev_jwt.py.
-/

structure HttpResponse where
  status : Nat
  body : String

inductive ExchangeError where
  | missingSecret : ExchangeError
  | authRejected : Nat → String → ExchangeError
  | requestFailed : ExchangeError
  | missingToken : ExchangeError
  | persistenceError : ExchangeError
deriving DecidableEq

inductive Effect where
  | keyGen : Effect
  | networkRequest : Effect
  | fileWrite : Effect
deriving DecidableEq

/-- The token_info dictionary the exchange persists; response-derived fields
keep their raw JSON values exactly as the source stores them. -/
structure TokenInfo where
  accessToken : Json
  refreshToken : Json
  tokenType : String
  expiresIn : Json
  tenantId : Json
  createdAt : String
  email : String
  deviceKeys : DeviceKeys

def tokenInfoToJson (t : TokenInfo) : Json :=
  Json.obj [("access_token", t.accessToken),
            ("refresh_token", t.refreshToken),
            ("token_type", Json.str t.tokenType),
            ("expires_in", t.expiresIn),
            ("tenant_id", t.tenantId),
            ("created_at", Json.str t.createdAt),
            ("email", t.email |> Json.str),
            ("device_keys", deviceKeysToJson t.deviceKeys)]

/-- get_dev_jwt_token from scripts/get_dev_jwt.py.  The externally produced
inputs are parameters: the environment's P8FS_DEV_TOKEN_SECRET, the
generated key material, the registration response, the timestamp, and
whether the final file write succeeds.  The effect list records, in order,
the side effects the run performs (key generation, the network round trip,
the successful file write); the returned Fs is the filesystem afterwards. -/
def get_dev_jwt_token (devToken : Option String) (keys : DeviceKeys)
    (resp : HttpResponse) (createdAt : String) (email : String)
    (outputFile : String) (writeOk : Bool) (fs : Fs) :
    Except ExchangeError TokenInfo × List Effect × Fs :=
  match devToken with
  | none => (.error .missingSecret, [], fs)
  | some tok =>
    if tok = "" then (.error .missingSecret, [], fs)
    else if resp.status ≠ 200 then
      (.error (.authRejected resp.status resp.body), [.keyGen, .networkRequest], fs)
    else
      match Json.parse resp.body with
      | none => (.error .requestFailed, [.keyGen, .networkRequest], fs)
      | some (.obj fields) =>
        match lookupField fields "access_token" with
        | none => (.error .missingToken, [.keyGen, .networkRequest], fs)
        | some v =>
          if jsonTruthy v then
            if writeOk then
              (.ok ⟨v, (lookupField fields "refresh_token").getD .null, "Bearer",
                    (lookupField fields "expires_in").getD (.num 3600),
                    (lookupField fields "tenant_id").getD .null,
                    createdAt, email, keys⟩,
               [.keyGen, .networkRequest, .fileWrite],
               fun p =>
                 if p = outputFile then
                   some (Json.render (tokenInfoToJson
                     ⟨v, (lookupField fields "refresh_token").getD .null, "Bearer",
                      (lookupField fields "expires_in").getD (.num 3600),
                      (lookupField fields "tenant_id").getD .null,
                      createdAt, email, keys⟩))
                 else fs p)
            else (.error .persistenceError, [.keyGen, .networkRequest], fs)
          else (.error .missingToken, [.keyGen, .networkRequest], fs)
      | some _ => (.error .requestFailed, [.keyGen, .networkRequest], fs)

def headNotDigitB (cs : List Char) : Bool :=
  match cs with
  | c :: _ => !c.isDigit
  | [] => true

lemma strMkData (s : String) : String.mk s.data = s := by
  cases s; rfl

lemma skipWs_cons_of (c : Char) (cs : List Char) (h : isWsChar c = false) :
    skipWs (c :: cs) = c :: cs := by
  simp [skipWs, h]

lemma parseStrBody_esc (cs : List Char) :
    ∀ rest, parseStrBody (escStr cs ++ '"' :: rest) = some (cs, rest) := by
  induction cs with
  | nil =>
    intro rest
    rw [show escStr [] = [] from rfl, List.nil_append, parseStrBody.eq_def]
    simp
  | cons c cs ih =>
    intro rest
    rw [show escStr (c :: cs) = escChar c ++ escStr cs from rfl]
    by_cases h1 : c = '"'
    · subst h1
      rw [show escChar '"' = ['\\', '"'] from rfl, List.append_assoc,
        List.cons_append, List.cons_append, List.nil_append, parseStrBody.eq_def]
      simp [unescapeChar, ih rest]
    · by_cases h2 : c = '\\'
      · subst h2
        rw [show escChar '\\' = ['\\', '\\'] from rfl, List.append_assoc,
          List.cons_append, List.cons_append, List.nil_append, parseStrBody.eq_def]
        simp [unescapeChar, ih rest]
      · rw [show escChar c = [c] from by simp [escChar, h1, h2], List.append_assoc,
          List.cons_append, List.nil_append, parseStrBody.eq_def]
        simp [h1, h2, ih rest]

lemma digitChar_isDigit (d : Nat) (hd : d < 10) : (Nat.digitChar d).isDigit = true := by
  interval_cases d <;> decide

lemma digitChar_toNat (d : Nat) (hd : d < 10) : (Nat.digitChar d).toNat = 48 + d := by
  interval_cases d <;> decide

lemma natDigitsFuel_digits (fuel : Nat) :
    ∀ m c, m < fuel → c ∈ natDigitsFuel fuel m → c.isDigit = true := by
  induction fuel with
  | zero => intro m c h; omega
  | succ fuel ih =>
    intro m c h hc
    rw [natDigitsFuel.eq_def] at hc
    by_cases h10 : m < 10
    · simp [h10] at hc
      subst hc
      exact digitChar_isDigit m h10
    · simp [h10] at hc
      rcases hc with hmem | hmem
      · exact ih (m / 10) c (by omega) hmem
      · subst hmem
        exact digitChar_isDigit (m % 10) (Nat.mod_lt _ (by omega))

lemma natDigitsFuel_ne_nil (fuel : Nat) :
    ∀ m, m < fuel → natDigitsFuel fuel m ≠ [] := by
  induction fuel with
  | zero => intro m h; omega
  | succ fuel _ =>
    intro m _ hnil
    rw [natDigitsFuel.eq_def] at hnil
    by_cases h10 : m < 10
    · simp [h10] at hnil
    · simp [h10] at hnil

lemma digitsToNat_natDigitsFuel (fuel : Nat) :
    ∀ m, m < fuel → digitsToNat (natDigitsFuel fuel m) = m := by
  induction fuel with
  | zero => intro m h; omega
  | succ fuel ih =>
    intro m h
    rw [natDigitsFuel.eq_def]
    by_cases h10 : m < 10
    · simp only [h10, if_pos]
      simp [digitsToNat, digitChar_toNat m h10]
    · simp only [h10, if_neg, Bool.false_eq_true, not_false_eq_true]
      have hm : m % 10 < 10 := Nat.mod_lt _ (by omega)
      simp [digitsToNat, List.foldl_append] at ih ⊢
      rw [ih (m / 10) (by omega), digitChar_toNat (m % 10) hm]
      omega

lemma natDigitChars_digits (n : Nat) (c : Char) (hc : c ∈ natDigitChars n) :
    c.isDigit = true :=
  natDigitsFuel_digits (n + 1) n c (by omega) hc

lemma natDigitChars_ne_nil (n : Nat) : natDigitChars n ≠ [] :=
  natDigitsFuel_ne_nil (n + 1) n (by omega)

lemma digitsToNat_natDigitChars (n : Nat) : digitsToNat (natDigitChars n) = n :=
  digitsToNat_natDigitsFuel (n + 1) n (by omega)

lemma grabDigits_split (digs : List Char) (hall : ∀ c ∈ digs, c.isDigit = true) :
    ∀ tl, headNotDigitB tl = true → grabDigits (digs ++ tl) = (digs, tl) := by
  induction digs with
  | nil =>
    intro tl htl
    rw [List.nil_append, grabDigits.eq_def]
    match tl with
    | [] => rfl
    | c :: t =>
      simp [headNotDigitB] at htl
      simp [htl]
  | cons c digs ih =>
    intro tl htl
    have hdig : c.isDigit = true := hall c (by simp)
    rw [List.cons_append, grabDigits.eq_def]
    simp only [hdig, if_pos]
    rw [ih (fun d hd => hall d (by simp [hd])) tl htl]

lemma parseNonnegNum_digits (n : Nat) (rest : List Char) (hrest : headNotDigitB rest = true) :
    parseNonnegNum (natDigitChars n ++ rest) = some (Int.ofNat n, rest) := by
  rw [parseNonnegNum, grabDigits_split (natDigitChars n) (natDigitChars_digits n) rest hrest]
  simp [natDigitChars_ne_nil n, digitsToNat_natDigitChars n]

lemma digit_not_sigil (c : Char) (h : c.isDigit = true) :
    c ≠ '"' ∧ c ≠ '[' ∧ c ≠ lBrace ∧ c ≠ 't' ∧ c ≠ 'f' ∧ c ≠ 'n' ∧ c ≠ '-' := by
  have hne : ∀ d : Char, d.isDigit = false → c ≠ d := by
    intro d hd he
    rw [he] at h
    rw [h] at hd
    exact absurd hd (by simp)
  exact ⟨hne '"' (by decide), hne '[' (by decide), hne lBrace (by decide),
    hne 't' (by decide), hne 'f' (by decide), hne 'n' (by decide), hne '-' (by decide)⟩

lemma digit_head_ok (c : Char) (h : c.isDigit = true) :
    isWsChar c = false ∧ c ≠ ']' ∧ c ≠ rBrace := by
  have hne : ∀ d : Char, d.isDigit = false → c ≠ d := by
    intro d hd he
    rw [he] at h
    rw [h] at hd
    exact absurd hd (by simp)
  refine ⟨?_, hne ']' (by decide), hne rBrace (by decide)⟩
  simp [isWsChar, hne ' ' (by decide), hne '\n' (by decide), hne '\t' (by decide),
    hne '\r' (by decide)]

lemma natDigitChars_head (n : Nat) :
    ∃ c t, natDigitChars n = c :: t ∧ c.isDigit = true := by
  match hm : natDigitChars n with
  | [] => exact absurd hm (natDigitChars_ne_nil n)
  | c :: t =>
    refine ⟨c, t, rfl, natDigitChars_digits n c ?_⟩
    rw [hm]; simp

lemma renderHead (v : Json) :
    ∃ c t, renderJsonChars v = c :: t ∧ isWsChar c = false ∧ c ≠ ']' ∧ c ≠ rBrace := by
  match v with
  | .null => exact ⟨'n', _, rfl, by decide⟩
  | .bool true => exact ⟨'t', _, rfl, by decide⟩
  | .bool false => exact ⟨'f', _, rfl, by decide⟩
  | .num n =>
    by_cases hn : n < 0
    · refine ⟨'-', natDigitChars n.natAbs, ?_, by decide⟩
      rw [renderJsonChars.eq_def]
      simp [hn]
    · obtain ⟨c, t, hct, hd⟩ := natDigitChars_head n.natAbs
      obtain ⟨h12, h8, h9⟩ := digit_head_ok c hd
      refine ⟨c, t, ?_, h12, h8, h9⟩
      rw [renderJsonChars.eq_def]
      simp [hn, hct]
  | .str s => exact ⟨'"', _, rfl, by decide⟩
  | .arr vs => exact ⟨'[', _, rfl, by decide⟩
  | .obj fs => exact ⟨lBrace, _, rfl, by decide⟩

lemma parseVal_str (fuel : Nat) (s : String) (rest : List Char) :
    parseVal (fuel + 1) (renderJsonChars (Json.str s) ++ rest) = some (Json.str s, rest) := by
  rw [show renderJsonChars (Json.str s) = '"' :: (escStr s.data ++ ['"']) from rfl,
    List.cons_append, List.append_assoc, List.singleton_append, parseVal.eq_def]
  simp [parseStrBody_esc, strMkData]

lemma parseVal_null (fuel : Nat) (rest : List Char) :
    parseVal (fuel + 1) (renderJsonChars Json.null ++ rest) = some (Json.null, rest) := rfl

lemma parseVal_bool (fuel : Nat) (b : Bool) (rest : List Char) :
    parseVal (fuel + 1) (renderJsonChars (Json.bool b) ++ rest) = some (Json.bool b, rest) := by
  cases b
  · rfl
  · rfl

lemma parseVal_num (fuel : Nat) (n : Int) (rest : List Char) (hrest : headNotDigitB rest = true) :
    parseVal (fuel + 1) (renderJsonChars (Json.num n) ++ rest) = some (Json.num n, rest) := by
  rw [renderJsonChars.eq_def]
  by_cases hn : n < 0
  · simp only [hn, if_pos]
    rw [List.cons_append, parseVal.eq_def]
    have h1 : (((-n).natAbs : Int)) = -n := Int.natAbs_of_nonneg (by omega)
    rw [Int.natAbs_neg] at h1
    have hofn : -Int.ofNat n.natAbs = n := by
      rw [show Int.ofNat n.natAbs = ((n.natAbs : Int)) from rfl, h1]
      ring
    simp only [show ('-' = '"') = False by decide, show ('-' = '[') = False by decide,
      show ('-' = lBrace) = False by decide, show ('-' = 't') = False by decide,
      show ('-' = 'f') = False by decide, show ('-' = 'n') = False by decide,
      if_false, ite_false]
    rw [show parseNum ('-' :: (natDigitChars n.natAbs ++ rest)) =
        (parseNonnegNum (natDigitChars n.natAbs ++ rest)).map (fun q => (-q.1, q.2)) from rfl]
    rw [parseNonnegNum_digits n.natAbs rest hrest]
    show some (Json.num (-Int.ofNat n.natAbs), rest) = some (Json.num n, rest)
    rw [hofn]
  · simp only [hn, if_neg, not_false_eq_true]
    obtain ⟨c, t, hct, hd⟩ := natDigitChars_head n.natAbs
    obtain ⟨n1, n2, n3, n4, n5, n6, n7⟩ := digit_not_sigil c hd
    rw [hct, List.cons_append, parseVal.eq_def]
    have hofn : Int.ofNat n.natAbs = n := by
      rw [show Int.ofNat n.natAbs = ((n.natAbs : Int)) from rfl]
      exact Int.natAbs_of_nonneg (by omega)
    simp only [n1, n2, n3, n4, n5, n6, ite_false, if_neg, not_false_eq_true]
    rw [show parseNum (c :: (t ++ rest)) = parseNonnegNum (c :: (t ++ rest)) from by
      rw [parseNum.eq_def]
      simp [n7]]
    rw [show c :: (t ++ rest) = natDigitChars n.natAbs ++ rest from by rw [hct, List.cons_append]]
    rw [parseNonnegNum_digits n.natAbs rest hrest]
    show some (Json.num (Int.ofNat n.natAbs), rest) = some (Json.num n, rest)
    rw [hofn]

lemma jsize_pos (v : Json) : 1 ≤ jsize v := by
  cases v <;> simp [jsize]

lemma renderArrHead (v : Json) (vs : List Json) :
    ∃ c t, renderArrChars (v :: vs) = c :: t ∧ isWsChar c = false ∧ c ≠ ']' ∧ c ≠ rBrace := by
  obtain ⟨c, t, hct, h1, h2, h3⟩ := renderHead v
  cases vs with
  | nil => exact ⟨c, t, by rw [show renderArrChars [v] = renderJsonChars v from rfl, hct], h1, h2, h3⟩
  | cons w ws =>
    refine ⟨c, t ++ ',' :: renderArrChars (w :: ws), ?_, h1, h2, h3⟩
    rw [show renderArrChars (v :: w :: ws)
        = renderJsonChars v ++ ',' :: renderArrChars (w :: ws) from rfl, hct, List.cons_append]

lemma renderObjHead (f : String × Json) (fs : List (String × Json)) :
    ∃ t, renderObjChars (f :: fs) = '"' :: t := by
  cases fs <;> exact ⟨_, rfl⟩

lemma parseElems_succ (fuel : Nat) (input : List Char) :
    parseElems (fuel + 1) input =
      match parseVal fuel (skipWs input) with
      | none => none
      | some (v, r) =>
        match skipWs r with
        | ',' :: r2 => (parseElems fuel r2).map (fun p => (v :: p.1, p.2))
        | ']' :: r2 => some ([v], r2)
        | _ => none := rfl

lemma parseFields_succ (fuel : Nat) (input : List Char) :
    parseFields (fuel + 1) input =
      match skipWs input with
      | '"' :: cs =>
        match parseStrBody cs with
        | none => none
        | some (key, next0) =>
          match skipWs next0 with
          | ':' :: after0 =>
            match parseVal fuel (skipWs after0) with
            | none => none
            | some (val0, more0) =>
              match skipWs more0 with
              | ',' :: fin0 => (parseFields fuel fin0).map (fun p => ((String.mk key, val0) :: p.1, p.2))
              | d :: fin0 => if d = rBrace then some ([(String.mk key, val0)], fin0) else none
              | [] => none
          | _ => none
      | _ => none := rfl

lemma parseVal_arrCons (fuel : Nat) (d : Char) (r : List Char)
    (hws : isWsChar d = false) (hne : d ≠ ']') :
    parseVal (fuel + 1) ('[' :: (d :: r)) =
      (parseElems fuel (d :: r)).map (fun p => (Json.arr p.1, p.2)) := by
  rw [show parseVal (fuel + 1) ('[' :: (d :: r)) =
      (match skipWs (d :: r) with
       | [] => none
       | e :: r2 =>
         if e = ']' then some (Json.arr [], r2)
         else (parseElems fuel (e :: r2)).map (fun p => (Json.arr p.1, p.2))) from rfl,
    skipWs_cons_of d r hws]
  simp [hne]

lemma parseVal_objCons (fuel : Nat) (d : Char) (r : List Char)
    (hws : isWsChar d = false) (hne : d ≠ rBrace) :
    parseVal (fuel + 1) (lBrace :: (d :: r)) =
      (parseFields fuel (d :: r)).map (fun p => (Json.obj p.1, p.2)) := by
  rw [show parseVal (fuel + 1) (lBrace :: (d :: r)) =
      (match skipWs (d :: r) with
       | [] => none
       | e :: r2 =>
         if e = rBrace then some (Json.obj [], r2)
         else (parseFields fuel (e :: r2)).map (fun p => (Json.obj p.1, p.2))) from rfl,
    skipWs_cons_of d r hws]
  simp [hne]

lemma parseRound (fuel : Nat) :
    (∀ v rest, jsize v ≤ fuel → headNotDigitB rest = true →
      parseVal fuel (renderJsonChars v ++ rest) = some (v, rest)) ∧
    (∀ vs rest, vs ≠ [] → jsizeList vs ≤ fuel →
      parseElems fuel (renderArrChars vs ++ ']' :: rest) = some (vs, rest)) ∧
    (∀ fs rest, fs ≠ [] → jsizeFields fs ≤ fuel →
      parseFields fuel (renderObjChars fs ++ rBrace :: rest) = some (fs, rest)) := by
  induction fuel with
  | zero =>
    refine ⟨fun v rest hv _ => ?_, fun vs rest hne hsz => ?_, fun fs rest hne hsz => ?_⟩
    · have := jsize_pos v
      omega
    · match vs with
      | v :: vs => simp [jsizeList] at hsz
    · match fs with
      | f :: fs => simp [jsizeFields] at hsz
  | succ fuel ih =>
    obtain ⟨ihv, ihe, ihf⟩ := ih
    refine ⟨fun v rest hv hrest => ?_, fun vs rest hne hsz => ?_, fun fs rest hne hsz => ?_⟩
    · match v with
      | .null => exact parseVal_null fuel rest
      | .bool b => exact parseVal_bool fuel b rest
      | .num n => exact parseVal_num fuel n rest hrest
      | .str s => exact parseVal_str fuel s rest
      | .arr [] => rfl
      | .arr (v1 :: vs) =>
        have hsz : jsizeList (v1 :: vs) ≤ fuel := by
          simp [jsize] at hv
          omega
        obtain ⟨c0, t0, hct, hws, hne1, _⟩ := renderArrHead v1 vs
        rw [show renderJsonChars (.arr (v1 :: vs)) ++ rest
            = '[' :: (renderArrChars (v1 :: vs) ++ ']' :: rest) from by
          rw [show renderJsonChars (.arr (v1 :: vs))
              = '[' :: (renderArrChars (v1 :: vs) ++ [']']) from rfl]
          simp]
        rw [hct, List.cons_append, parseVal_arrCons fuel c0 _ hws hne1,
          ← List.cons_append, ← hct, ihe (v1 :: vs) rest (by simp) hsz]
        rfl
      | .obj [] => rfl
      | .obj (f1 :: fs) =>
        have hsz : jsizeFields (f1 :: fs) ≤ fuel := by
          simp [jsize] at hv
          omega
        obtain ⟨t0, hct⟩ := renderObjHead f1 fs
        rw [show renderJsonChars (.obj (f1 :: fs)) ++ rest
            = lBrace :: (renderObjChars (f1 :: fs) ++ rBrace :: rest) from by
          rw [show renderJsonChars (.obj (f1 :: fs))
              = lBrace :: (renderObjChars (f1 :: fs) ++ [rBrace]) from rfl]
          simp]
        rw [hct, List.cons_append, parseVal_objCons fuel '"' _ (by decide) (by decide),
          ← List.cons_append, ← hct, ihf (f1 :: fs) rest (by simp) hsz]
        rfl
    · match vs with
      | [v] =>
        have hv : jsize v ≤ fuel := by
          simp [jsizeList] at hsz
          omega
        obtain ⟨c0, t0, hct, hws, _, _⟩ := renderHead v
        have hsk : skipWs (renderJsonChars v ++ ']' :: rest)
            = renderJsonChars v ++ ']' :: rest := by
          rw [hct, List.cons_append, skipWs_cons_of c0 _ hws]
        rw [show renderArrChars [v] = renderJsonChars v from rfl, parseElems_succ, hsk,
          ihv v (']' :: rest) hv rfl]
        have hsk2 : skipWs (']' :: rest) = ']' :: rest := skipWs_cons_of _ _ (by decide)
        simp [hsk2]
      | v :: w :: ws =>
        have hv : jsize v ≤ fuel := by
          simp [jsizeList] at hsz
          omega
        have hsz2 : jsizeList (w :: ws) ≤ fuel := by
          have := jsize_pos v
          simp [jsizeList] at hsz ⊢
          omega
        obtain ⟨c0, t0, hct, hws, _, _⟩ := renderHead v
        have hsk : skipWs (renderJsonChars v ++ ',' :: (renderArrChars (w :: ws) ++ ']' :: rest))
            = renderJsonChars v ++ ',' :: (renderArrChars (w :: ws) ++ ']' :: rest) := by
          rw [hct, List.cons_append, skipWs_cons_of c0 _ hws]
        rw [show renderArrChars (v :: w :: ws) ++ ']' :: rest
            = renderJsonChars v ++ ',' :: (renderArrChars (w :: ws) ++ ']' :: rest) from by
          rw [show renderArrChars (v :: w :: ws)
              = renderJsonChars v ++ ',' :: renderArrChars (w :: ws) from rfl]
          simp]
        rw [parseElems_succ, hsk,
          ihv v (',' :: (renderArrChars (w :: ws) ++ ']' :: rest)) hv rfl]
        have hsk2 : skipWs (',' :: (renderArrChars (w :: ws) ++ ']' :: rest))
            = ',' :: (renderArrChars (w :: ws) ++ ']' :: rest) := skipWs_cons_of _ _ (by decide)
        simp only [hsk2]
        rw [ihe (w :: ws) rest (by simp) hsz2]
        rfl
    · match fs with
      | [f] =>
        have hv : jsize f.2 ≤ fuel := by
          simp [jsizeFields] at hsz
          omega
        obtain ⟨c0, t0, hct, hws, _, _⟩ := renderHead f.2
        have hsk3 : skipWs (renderJsonChars f.2 ++ rBrace :: rest)
            = renderJsonChars f.2 ++ rBrace :: rest := by
          rw [hct, List.cons_append, skipWs_cons_of c0 _ hws]
        rw [show renderObjChars [f] ++ rBrace :: rest
            = '"' :: (escStr f.1.data ++ '"' :: (':' :: (renderJsonChars f.2 ++ rBrace :: rest)))
            from by
          rw [show renderObjChars [f]
              = '"' :: (escStr f.1.data ++ '"' :: ':' :: renderJsonChars f.2) from rfl]
          simp]
        rw [parseFields_succ,
          skipWs_cons_of '"' _ (by decide)]
        simp only [parseStrBody_esc f.1.data]
        have hsk1 : skipWs (':' :: (renderJsonChars f.2 ++ rBrace :: rest))
            = ':' :: (renderJsonChars f.2 ++ rBrace :: rest) := skipWs_cons_of _ _ (by decide)
        have hsk4 : skipWs (rBrace :: rest) = rBrace :: rest := skipWs_cons_of _ _ (by decide)
        simp only [hsk1, hsk3, ihv f.2 (rBrace :: rest) hv rfl, hsk4]
        rfl
      | f :: g :: gs =>
        have hv : jsize f.2 ≤ fuel := by
          simp [jsizeFields] at hsz
          omega
        have hsz2 : jsizeFields (g :: gs) ≤ fuel := by
          have := jsize_pos f.2
          simp [jsizeFields] at hsz ⊢
          omega
        obtain ⟨c0, t0, hct, hws, _, _⟩ := renderHead f.2
        have hsk3 : skipWs (renderJsonChars f.2 ++ ',' :: (renderObjChars (g :: gs) ++ rBrace :: rest))
            = renderJsonChars f.2 ++ ',' :: (renderObjChars (g :: gs) ++ rBrace :: rest) := by
          rw [hct, List.cons_append, skipWs_cons_of c0 _ hws]
        rw [show renderObjChars (f :: g :: gs) ++ rBrace :: rest
            = '"' :: (escStr f.1.data ++ '"' :: (':' ::
                (renderJsonChars f.2 ++ ',' :: (renderObjChars (g :: gs) ++ rBrace :: rest))))
            from by
          rw [show renderObjChars (f :: g :: gs)
              = '"' :: (escStr f.1.data ++ '"' :: ':' ::
                  (renderJsonChars f.2 ++ ',' :: renderObjChars (g :: gs))) from rfl]
          simp]
        rw [parseFields_succ,
          skipWs_cons_of '"' _ (by decide)]
        simp only [parseStrBody_esc f.1.data]
        have hsk1 : skipWs (':' ::
              (renderJsonChars f.2 ++ ',' :: (renderObjChars (g :: gs) ++ rBrace :: rest)))
            = ':' :: (renderJsonChars f.2 ++ ',' :: (renderObjChars (g :: gs) ++ rBrace :: rest)) :=
          skipWs_cons_of _ _ (by decide)
        have hsk4 : skipWs (',' :: (renderObjChars (g :: gs) ++ rBrace :: rest))
            = ',' :: (renderObjChars (g :: gs) ++ rBrace :: rest) := skipWs_cons_of _ _ (by decide)
        simp only [hsk1, hsk3,
          ihv f.2 (',' :: (renderObjChars (g :: gs) ++ rBrace :: rest)) hv rfl, hsk4]
        rw [ihf (g :: gs) rest (by simp) hsz2]
        rfl

lemma jsize_optStr (o : Option String) : jsize (optStrJson o) = 1 := by
  cases o <;> rfl

lemma jsize_record (r : SessionRecord) : jsize (sessionRecordToJson r) = 23 := by
  simp [sessionRecordToJson, jsize, jsizeFields, deviceKeysToJson, jsize_optStr]

lemma render_record_len (r : SessionRecord) :
    15 ≤ (renderJsonChars (sessionRecordToJson r)).length := by
  have h12 : (escStr (("access_token" : String)).data).length = 12 := rfl
  rw [show renderJsonChars (sessionRecordToJson r)
      = lBrace :: (renderObjChars
          [("access_token", Json.str r.accessToken),
           ("refresh_token", optStrJson r.refreshToken),
           ("token_type", Json.str r.tokenType),
           ("expires_in", Json.num (Int.ofNat r.expiresInSeconds)),
           ("tenant_id", optStrJson r.tenantId),
           ("created_at", Json.str r.createdAt),
           ("email", Json.str r.email),
           ("device_keys", deviceKeysToJson r.deviceKeys)] ++ [rBrace]) from rfl]
  rw [show renderObjChars
          [("access_token", Json.str r.accessToken),
           ("refresh_token", optStrJson r.refreshToken),
           ("token_type", Json.str r.tokenType),
           ("expires_in", Json.num (Int.ofNat r.expiresInSeconds)),
           ("tenant_id", optStrJson r.tenantId),
           ("created_at", Json.str r.createdAt),
           ("email", Json.str r.email),
           ("device_keys", deviceKeysToJson r.deviceKeys)]
      = '"' :: (escStr (("access_token" : String)).data ++ '"' :: ':' ::
          (renderJsonChars (Json.str r.accessToken) ++ ',' :: renderObjChars
            [("refresh_token", optStrJson r.refreshToken),
             ("token_type", Json.str r.tokenType),
             ("expires_in", Json.num (Int.ofNat r.expiresInSeconds)),
             ("tenant_id", optStrJson r.tenantId),
             ("created_at", Json.str r.createdAt),
             ("email", Json.str r.email),
             ("device_keys", deviceKeysToJson r.deviceKeys)])) from rfl]
  simp [List.length_append, h12]
  omega

lemma parse_render_record (r : SessionRecord) :
    Json.parse (Json.render (sessionRecordToJson r)) = some (sessionRecordToJson r) := by
  have hlen := render_record_len r
  have hsize := jsize_record r
  have hmain := (parseRound (2 * (renderJsonChars (sessionRecordToJson r)).length + 2)).1
    (sessionRecordToJson r) [] (by omega) rfl
  rw [List.append_nil] at hmain
  obtain ⟨c, t, hct, hws, _, _⟩ := renderHead (sessionRecordToJson r)
  rw [show Json.parse (Json.render (sessionRecordToJson r))
      = (match parseVal (2 * (renderJsonChars (sessionRecordToJson r)).length + 2)
            (skipWs (renderJsonChars (sessionRecordToJson r))) with
         | none => none
         | some (v, rrest) => if skipWs rrest = [] then some v else none) from rfl]
  rw [hct, skipWs_cons_of c _ hws, ← hct, hmain]
  rfl

lemma jsonAsOptStr_optStrJson (o : Option String) : jsonAsOptStr (optStrJson o) = some o := by
  cases o <;> rfl

lemma jsonAsNat_cast (n : Nat) : jsonAsNat (Json.num ((n : Int))) = some n := by
  simp [jsonAsNat, show ¬ ((n : Int) < 0) from not_lt.mpr (Int.natCast_nonneg n)]

lemma sessionRecordOfJson_toJson (r : SessionRecord) :
    sessionRecordOfJson (sessionRecordToJson r) = some r := by
  obtain ⟨tok, rtok, ttype, exp, ten, cat, em, dk⟩ := r
  obtain ⟨a, b, c⟩ := dk
  simp [sessionRecordToJson, sessionRecordOfJson, deviceKeysToJson, deviceKeysOfJson,
    lookupField, jsonAsStr, jsonAsNat_cast, jsonAsOptStr_optStrJson]

lemma listStartsWith_append (p t : List Char) : listStartsWith p (p ++ t) = true := by
  induction p with
  | nil => rfl
  | cons c p ih => simp [listStartsWith, ih]

lemma decodeSSE_cons (line : String) (rest : List String) :
    decodeSSE (line :: rest) =
      if listStartsWith ("data: ").data line.data then
        if String.mk (line.data.drop 6) = "[DONE]" then ([], none)
        else
          match extractContent (String.mk (line.data.drop 6)) with
          | .ok content =>
            if jsonTruthy content then
              (content :: (decodeSSE rest).1, (decodeSSE rest).2)
            else decodeSSE rest
          | .error e => if caughtBySkip e then decodeSSE rest else ([], some e)
      else decodeSSE rest := rfl

lemma dataLine_start (data : String) :
    listStartsWith ("data: ").data (("data: " ++ data)).data = true := by
  rw [String.data_append]
  exact listStartsWith_append _ _

lemma dataLine_drop (data : String) :
    String.mk ((("data: " ++ data)).data.drop 6) = data := by
  rw [String.data_append, show (6 : Nat) = (("data: " : String)).data.length from rfl,
    List.drop_left, strMkData]

/-- Claim C9: a line that does not begin with the literal mark "data: " (blank
separators, comment lines such as event: ping) is silently ignored by the
stream decoder and never contributes a delta. -/
theorem stream_non_data_line_ignored (line : String) (rest : List String)
    (h : listStartsWith ("data: ").data line.data = false) :
    decodeSSE (line :: rest) = decodeSSE rest := by
  simp [decodeSSE_cons, h]

/-- Witness for C9 at the concrete line event: ping. -/
theorem stream_non_data_line_ignored_witness :
    listStartsWith ("data: ").data (("event: ping" : String)).data = false ∧
    decodeSSE ["event: ping"] = decodeSSE [] :=
  ⟨by decide, stream_non_data_line_ignored "event: ping" [] (by decide)⟩

/-- Claim C2: a "data: " line whose payload is the sentinel [DONE] terminates
decoding at once: the rest of the stream is never read, whatever it holds;
and the two-line sequence of the claim yields exactly one delta "Hi". -/
theorem stream_done_terminates :
    (∀ rest : List String, decodeSSE ("data: [DONE]" :: rest) = ([], none)) ∧
    (∀ rest : List String,
      decodeSSE ("data: \x7b\"choices\":[\x7b\"delta\":\x7b\"content\":\"Hi\"\x7d\x7d]\x7d" ::
        "data: [DONE]" :: rest) = ([Json.str "Hi"], none)) := by
  constructor
  · intro rest
    rfl
  · intro rest
    rfl

/-- Claim C7: an event whose extracted content is the empty string emits no
delta; the decoder moves on and the caller never sees an empty delta. -/
theorem stream_empty_content_no_delta (data : String) (rest : List String)
    (h : extractContent data = Except.ok (Json.str "")) :
    decodeSSE (("data: " ++ data) :: rest) = decodeSSE rest := by
  have hdone : data ≠ "[DONE]" := by
    intro he
    rw [he] at h
    exact absurd h (by simp [show extractContent "[DONE]" = Except.error PyErr.jsonDecodeError
      from rfl])
  simp [decodeSSE_cons, dataLine_start, dataLine_drop, hdone, h, jsonTruthy]

/-- Witness for C7: a chunk whose delta object has no content field, so the
.get default yields the empty string. -/
theorem stream_empty_content_no_delta_witness :
    extractContent "\x7b\"choices\":[\x7b\"delta\":\x7b\x7d\x7d]\x7d" = Except.ok (Json.str "") ∧
    decodeSSE ["data: \x7b\"choices\":[\x7b\"delta\":\x7b\x7d\x7d]\x7d"] = decodeSSE [] :=
  ⟨rfl, stream_empty_content_no_delta "\x7b\"choices\":[\x7b\"delta\":\x7b\x7d\x7d]\x7d" [] rfl⟩

/-- Claim C1, amended: a "data: " event is skipped (no delta) and decoding
continues exactly when the extraction failure is one the source's except
clause catches - invalid JSON, a missing key, or a missing index.  A wrong
shape that raises TypeError or AttributeError is not caught (see the
counterexample) and aborts the stream. -/
theorem stream_skip_caught_malformed (data : String) (rest : List String) (e : PyErr)
    (hdone : data ≠ "[DONE]")
    (herr : extractContent data = Except.error e) (hc : caughtBySkip e = true) :
    decodeSSE (("data: " ++ data) :: rest) = decodeSSE rest := by
  simp [decodeSSE_cons, dataLine_start, dataLine_drop, hdone, herr, hc]

/-- Counterexample to C1 as stated: the payload [] is valid JSON of the wrong
shape; indexing it with the string key raises TypeError, which the except
clause does not catch, so the stream aborts with no delta instead of
skipping the event and continuing to the well-formed chunk. -/
theorem stream_wrong_shape_aborts :
    decodeSSE ["data: []",
      "data: \x7b\"choices\":[\x7b\"delta\":\x7b\"content\":\"ok\"\x7d\x7d]\x7d"]
      = ([], some PyErr.typeError) ∧
    decodeSSE ["data: \x7b\"choices\":[\x7b\"delta\":\x7b\"content\":\"ok\"\x7d\x7d]\x7d"]
      = ([Json.str "ok"], none) ∧
    decodeSSE ["data: []",
        "data: \x7b\"choices\":[\x7b\"delta\":\x7b\"content\":\"ok\"\x7d\x7d]\x7d"]
      ≠ decodeSSE ["data: \x7b\"choices\":[\x7b\"delta\":\x7b\"content\":\"ok\"\x7d\x7d]\x7d"] := by
  refine ⟨rfl, rfl, ?_⟩
  rw [show decodeSSE ["data: []",
      "data: \x7b\"choices\":[\x7b\"delta\":\x7b\"content\":\"ok\"\x7d\x7d]\x7d"]
      = ([], some PyErr.typeError) from rfl,
    show decodeSSE ["data: \x7b\"choices\":[\x7b\"delta\":\x7b\"content\":\"ok\"\x7d\x7d]\x7d"]
      = ([Json.str "ok"], none) from rfl]
  simp

/-- Witness for the amended C1 at the not-json payload of the spec's own
example, followed by a well-formed chunk that still yields its delta. -/
theorem stream_skip_caught_malformed_witness :
    ("not-json" : String) ≠ "[DONE]" ∧
    extractContent "not-json" = Except.error PyErr.jsonDecodeError ∧
    caughtBySkip PyErr.jsonDecodeError = true ∧
    decodeSSE ["data: not-json",
      "data: \x7b\"choices\":[\x7b\"delta\":\x7b\"content\":\"ok\"\x7d\x7d]\x7d"]
      = decodeSSE ["data: \x7b\"choices\":[\x7b\"delta\":\x7b\"content\":\"ok\"\x7d\x7d]\x7d"] :=
  ⟨by decide, rfl, rfl,
    stream_skip_caught_malformed "not-json"
      ["data: \x7b\"choices\":[\x7b\"delta\":\x7b\"content\":\"ok\"\x7d\x7d]\x7d"]
      PyErr.jsonDecodeError (by decide) rfl rfl⟩

/-- Claim C8: when the streaming HTTP response has a non-200 status, the
decoder is never invoked - the caller surfaces the status and body as a hard
failure and zero deltas are produced. -/
theorem stream_http_error_no_decode (resp : StreamResponse) (h : resp.status ≠ 200) :
    stream_chat_completion resp = StreamOutcome.httpError resp.status resp.body := by
  simp [stream_chat_completion, h]

/-- Witness for C8 at status 401. -/
theorem stream_http_error_no_decode_witness :
    ((401 : Nat) ≠ 200) ∧
    stream_chat_completion ⟨401, "denied", ["data: x"]⟩ = StreamOutcome.httpError 401 "denied" :=
  ⟨by decide, stream_http_error_no_decode ⟨401, "denied", ["data: x"]⟩ (by decide)⟩

/-- Claim C6: load fails with NotFound when the path does not exist, with
CorruptRecord when the contents do not parse, with MissingToken when the
parsed dict has no access_token key; and it succeeds, returning the access
token, only when the file exists, parses to a dict, and holds a truthy
access token. -/
theorem load_error_taxonomy (path : String) (fs : Fs) :
    (fs path = none → load_jwt_token path fs = Except.error LoadError.notFound) ∧
    (∀ s, fs path = some s → Json.parse s = none →
      load_jwt_token path fs = Except.error LoadError.corruptRecord) ∧
    (∀ s fields, fs path = some s → Json.parse s = some (Json.obj fields) →
      lookupField fields "access_token" = none →
      load_jwt_token path fs = Except.error LoadError.missingToken) ∧
    (∀ v, load_jwt_token path fs = Except.ok v →
      ∃ s fields, fs path = some s ∧ Json.parse s = some (Json.obj fields) ∧
        lookupField fields "access_token" = some v ∧ jsonTruthy v = true) := by
  refine ⟨fun hnf => by simp [load_jwt_token, hnf],
    fun s h1 h2 => by simp [load_jwt_token, h1, h2],
    fun s fields h1 h2 h3 => by simp [load_jwt_token, h1, h2, h3],
    fun v hv => ?_⟩
  match hfs : fs path with
  | none => simp [load_jwt_token, hfs] at hv
  | some s =>
    match hp : Json.parse s with
    | none => simp [load_jwt_token, hfs, hp] at hv
    | some j =>
      cases j with
      | obj fields =>
        match hlk : lookupField fields "access_token" with
        | none => simp [load_jwt_token, hfs, hp, hlk] at hv
        | some w =>
          cases hb : jsonTruthy w with
          | false => simp [load_jwt_token, hfs, hp, hlk, hb] at hv
          | true =>
            simp [load_jwt_token, hfs, hp, hlk, hb] at hv
            subst hv
            exact ⟨s, fields, rfl, hp, hlk, hb⟩
      | null => simp [load_jwt_token, hfs, hp] at hv
      | bool b => simp [load_jwt_token, hfs, hp] at hv
      | num n => simp [load_jwt_token, hfs, hp] at hv
      | str s2 => simp [load_jwt_token, hfs, hp] at hv
      | arr vs => simp [load_jwt_token, hfs, hp] at hv

/-- Witness for C6 on the empty filesystem. -/
theorem load_error_taxonomy_witness :
    load_jwt_token "missing.json" (fun _ => none) = Except.error LoadError.notFound :=
  (load_error_taxonomy "missing.json" (fun _ => none)).1 rfl

/-- Claim C4: a non-200 registration response is a hard failure carrying the
status code and raw body; the effect list shows the single network round
trip with no retry and no file write, and the filesystem is unchanged (the
Session Store's save is never reached). -/
theorem exchange_non200_hard_failure (tok : String) (keys : DeviceKeys) (resp : HttpResponse)
    (createdAt email outputFile : String) (writeOk : Bool) (fs : Fs)
    (htok : tok ≠ "") (hst : resp.status ≠ 200) :
    get_dev_jwt_token (some tok) keys resp createdAt email outputFile writeOk fs
      = (Except.error (ExchangeError.authRejected resp.status resp.body),
         [Effect.keyGen, Effect.networkRequest], fs) := by
  simp [get_dev_jwt_token, htok, hst]

/-- Witness for C4 at status 401. -/
theorem exchange_non200_hard_failure_witness :
    (("secret" : String) ≠ "") ∧ ((401 : Nat) ≠ 200) ∧
    get_dev_jwt_token (some "secret") ⟨"p", "q", "s"⟩ ⟨401, "denied"⟩ "now" "a@b.c"
        "out.json" true (fun _ => none)
      = (Except.error (ExchangeError.authRejected 401 "denied"),
         [Effect.keyGen, Effect.networkRequest], (fun _ => none)) :=
  ⟨by decide, by decide,
    exchange_non200_hard_failure "secret" ⟨"p", "q", "s"⟩ ⟨401, "denied"⟩ "now" "a@b.c"
      "out.json" true (fun _ => none) (by decide) (by decide)⟩

/-- Claim C10: with the bootstrap secret absent or empty the exchange fails
immediately: the effect list is empty, so no key pair is generated, no
network request is made, and no file is written. -/
theorem exchange_missing_secret_no_effects (devToken : Option String) (keys : DeviceKeys) (resp : HttpResponse)
    (createdAt email outputFile : String) (writeOk : Bool) (fs : Fs)
    (h : devToken = none ∨ devToken = some "") :
    get_dev_jwt_token devToken keys resp createdAt email outputFile writeOk fs
      = (Except.error ExchangeError.missingSecret, [], fs) := by
  rcases h with hnone | hempty
  · subst hnone
    simp [get_dev_jwt_token]
  · subst hempty
    simp [get_dev_jwt_token]

/-- Witness for C10 with the secret absent. -/
theorem exchange_missing_secret_no_effects_witness :
    ((none : Option String) = none ∨ (none : Option String) = some "") ∧
    get_dev_jwt_token none ⟨"p", "q", "s"⟩ ⟨200, "\x7b\x7d"⟩ "now" "a@b.c" "out.json" true
        (fun _ => none)
      = (Except.error ExchangeError.missingSecret, [], (fun _ => none)) :=
  ⟨Or.inl rfl, exchange_missing_secret_no_effects none ⟨"p", "q", "s"⟩ ⟨200, "\x7b\x7d"⟩
    "now" "a@b.c" "out.json" true (fun _ => none) (Or.inl rfl)⟩

/-- Claim C3: on a 200 response the exchange produces a record exactly when
the body is a JSON dict carrying a truthy access token; in particular a dict
without the access_token key (such as the empty body of the spec's example)
is a MissingToken failure with no record constructed and no file written. -/
theorem exchange_token_iff_record (tok : String) (keys : DeviceKeys) (resp : HttpResponse)
    (createdAt email outputFile : String) (fs : Fs)
    (htok : tok ≠ "") (h200 : resp.status = 200) :
    ((∃ info, (get_dev_jwt_token (some tok) keys resp createdAt email outputFile true fs).1
        = Except.ok info) ↔
      (∃ fields v, Json.parse resp.body = some (Json.obj fields) ∧
        lookupField fields "access_token" = some v ∧ jsonTruthy v = true)) ∧
    (∀ fields, Json.parse resp.body = some (Json.obj fields) →
      lookupField fields "access_token" = none →
      get_dev_jwt_token (some tok) keys resp createdAt email outputFile true fs
        = (Except.error ExchangeError.missingToken, [Effect.keyGen, Effect.networkRequest], fs)) := by
  constructor
  · constructor
    · rintro ⟨info, hinfo⟩
      match hp : Json.parse resp.body with
      | none => simp [get_dev_jwt_token, htok, h200, hp] at hinfo
      | some j =>
        cases j with
        | obj fields =>
          match hlk : lookupField fields "access_token" with
          | none => simp [get_dev_jwt_token, htok, h200, hp, hlk] at hinfo
          | some w =>
            cases hb : jsonTruthy w with
            | false => simp [get_dev_jwt_token, htok, h200, hp, hlk, hb] at hinfo
            | true => exact ⟨fields, w, rfl, hlk, hb⟩
        | null => simp [get_dev_jwt_token, htok, h200, hp] at hinfo
        | bool b => simp [get_dev_jwt_token, htok, h200, hp] at hinfo
        | num n => simp [get_dev_jwt_token, htok, h200, hp] at hinfo
        | str s2 => simp [get_dev_jwt_token, htok, h200, hp] at hinfo
        | arr vs => simp [get_dev_jwt_token, htok, h200, hp] at hinfo
    · rintro ⟨fields, v, hp, hlk, htr⟩
      exact ⟨⟨v, (lookupField fields "refresh_token").getD Json.null, "Bearer",
        (lookupField fields "expires_in").getD (Json.num 3600),
        (lookupField fields "tenant_id").getD Json.null, createdAt, email, keys⟩,
        by simp [get_dev_jwt_token, htok, h200, hp, hlk, htr]⟩
  · intro fields hp hlk
    simp [get_dev_jwt_token, htok, h200, hp, hlk]

/-- Witness for C3 at a 200 response whose body carries an access token. -/
theorem exchange_token_iff_record_witness :
    (("secret" : String) ≠ "") ∧
    (((∃ info, (get_dev_jwt_token (some "secret") ⟨"p", "q", "s"⟩
          ⟨200, "\x7b\"access_token\":\"tok1\"\x7d"⟩ "now" "a@b.c" "out.json" true
          (fun _ => none)).1 = Except.ok info) ↔
        (∃ fields v, Json.parse "\x7b\"access_token\":\"tok1\"\x7d" = some (Json.obj fields) ∧
          lookupField fields "access_token" = some v ∧ jsonTruthy v = true)) ∧
      (∀ fields, Json.parse "\x7b\"access_token\":\"tok1\"\x7d" = some (Json.obj fields) →
        lookupField fields "access_token" = none →
        get_dev_jwt_token (some "secret") ⟨"p", "q", "s"⟩
            ⟨200, "\x7b\"access_token\":\"tok1\"\x7d"⟩ "now" "a@b.c" "out.json" true
            (fun _ => none)
          = (Except.error ExchangeError.missingToken,
             [Effect.keyGen, Effect.networkRequest], (fun _ => none)))) :=
  ⟨by decide, exchange_token_iff_record "secret" ⟨"p", "q", "s"⟩
    ⟨200, "\x7b\"access_token\":\"tok1\"\x7d"⟩ "now" "a@b.c" "out.json" (fun _ => none)
    (by decide) rfl⟩

/-- Claim C5: saving a SessionRecord and loading it back from the same path
yields a record equal in all fields to the original, including the nested
device key material in all three encodings.  The non-empty access token
hypothesis is the spec's own invariant on records a successful exchange
produces. -/
theorem save_load_roundtrip (r : SessionRecord) (path : String) (fs : Fs)
    (htok : r.accessToken ≠ "") :
    loadRecord path (save r path fs) = Except.ok r := by
  have hparse := parse_render_record r
  have hof := sessionRecordOfJson_toJson r
  have hunf : sessionRecordToJson r = Json.obj
      [("access_token", Json.str r.accessToken),
       ("refresh_token", optStrJson r.refreshToken),
       ("token_type", Json.str r.tokenType),
       ("expires_in", Json.num ((r.expiresInSeconds : Int))),
       ("tenant_id", optStrJson r.tenantId),
       ("created_at", Json.str r.createdAt),
       ("email", Json.str r.email),
       ("device_keys", deviceKeysToJson r.deviceKeys)] := rfl
  rw [hunf] at hparse hof
  simp [loadRecord, save, hparse, hof, hunf, lookupField, jsonTruthy, htok]

/-- Witness for C5 at a concrete record. -/
theorem save_load_roundtrip_witness :
    (⟨"tok", some "rt", "Bearer", 3600, none, "2025-01-01", "a@b.c",
      ⟨"privpem", "pubpem", "pubb64"⟩⟩ : SessionRecord).accessToken ≠ "" ∧
    loadRecord "f.json"
      (save ⟨"tok", some "rt", "Bearer", 3600, none, "2025-01-01", "a@b.c",
        ⟨"privpem", "pubpem", "pubb64"⟩⟩ "f.json" (fun _ => none)) =
      Except.ok ⟨"tok", some "rt", "Bearer", 3600, none, "2025-01-01", "a@b.c",
        ⟨"privpem", "pubpem", "pubb64"⟩⟩ :=
  ⟨by decide, save_load_roundtrip _ "f.json" _ (by decide)⟩
